import Mathlib

/-! Shallow embedding of the dr-shooting segmentation server
(`server/server.py` and `server/websocket_server.py`).

Probability masks are 2D grids of rationals, binary masks are 2D grids of
booleans.  Python float arithmetic is modelled by exact rational arithmetic
(`ℚ`), `int()` truncation toward zero by `pyInt`, and `x % 1.0` by `fract1`.
External collaborators (the LaMa inpainting model, PIL image resize/crop,
cv2 dilation on images) are parameters of the request environment; the
mask-level arithmetic the server performs itself (binarization, pixel
counting, overlap ratios, nearest-neighbour resize, bbox clamping) is
embedded concretely.
-/

namespace DrShooting

/-- A 2D grid stored as a list of rows. -/
abbrev Grid (α : Type) := List (List α)

/-- Number of rows (`arr.shape[0]`). -/
def gridH (g : Grid α) : ℕ := g.length

/-- Number of columns of the first row (`arr.shape[1]`). -/
def gridW (g : Grid α) : ℕ := (g.headD []).length

/-- Embedding of `(mask > 0.5).astype(np.uint8)`: binarize a probability mask at 0.5. -/
def binarize (m : Grid ℚ) : Grid Bool :=
  m.map (fun row => row.map (fun p => decide ((1 : ℚ)/2 < p)))

/-- Embedding of `np.sum(binary_mask)`: number of set pixels. -/
def pixelCount (b : Grid Bool) : ℕ :=
  (b.map (fun row => row.countP id)).sum

/-- Embedding of `a & b` on same-shape binary grids. -/
def andGrid (a b : Grid Bool) : Grid Bool :=
  List.zipWith (fun ra rb => List.zipWith (fun x y => x && y) ra rb) a b

/-- Embedding of `np.maximum(a, b)` on same-shape binary grids. -/
def orGrid (a b : Grid Bool) : Grid Bool :=
  List.zipWith (fun ra rb => List.zipWith (fun x y => x || y) ra rb) a b

/-- Embedding of `np.zeros((h, w))` as a binary grid. -/
def zeroGrid (h w : ℕ) : Grid Bool :=
  List.replicate h (List.replicate w false)

/-- Python `int()` applied to a real value: truncation toward zero. -/
def pyInt (q : ℚ) : ℤ := if 0 ≤ q then ⌊q⌋ else ⌈q⌉

/-- Python `x % 1.0` (for the hue computation): the fractional part. -/
def fract1 (q : ℚ) : ℚ := q - ⌊q⌋

/-- Embedding of `colorsys.hsv_to_rgb`, translated clause by clause from CPython. -/
def hsv_to_rgb (h s v : ℚ) : ℚ × ℚ × ℚ :=
  if s = 0 then (v, v, v)
  else
    let i0 : ℤ := pyInt (h * 6)
    let f : ℚ := h * 6 - i0
    let p := v * (1 - s)
    let q := v * (1 - s * f)
    let t := v * (1 - s * (1 - f))
    let i := i0 % 6
    if i = 0 then (v, t, p)
    else if i = 1 then (q, v, p)
    else if i = 2 then (p, v, t)
    else if i = 3 then (p, q, v)
    else if i = 4 then (t, p, v)
    else (v, p, q)

/-- Embedding of `generate_distinct_color` from `server.py`: golden-ratio hue increment,
HSV(hue, 0.7, 0.9) converted to RGB and truncated to 0..255 channels. -/
def generate_distinct_color (index : ℕ) : List ℤ :=
  let golden_ratio : ℚ := 618033988749895 / 1000000000000000
  let hue := fract1 ((index : ℚ) * golden_ratio)
  let rgb := hsv_to_rgb hue (7/10) (9/10)
  [pyInt (rgb.1 * 255), pyInt (rgb.2.1 * 255), pyInt (rgb.2.2 * 255)]

/-- Embedding of `expand_bbox` from `server.py`: pad a rectangle by `padding_ratio` of its
own width/height on each side, clamp the low corner below by 0 and the high
corner above by the image size, and truncate to integers. -/
def expand_bbox (bbox : ℚ × ℚ × ℚ × ℚ) (image_size : ℕ × ℕ)
    (padding_ratio : ℚ) : List ℤ :=
  let x1 := bbox.1
  let y1 := bbox.2.1
  let x2 := bbox.2.2.1
  let y2 := bbox.2.2.2
  let w := x2 - x1
  let h := y2 - y1
  let pad_x := w * padding_ratio
  let pad_y := h * padding_ratio
  [pyInt (max 0 (x1 - pad_x)), pyInt (max 0 (y1 - pad_y)),
   pyInt (min ((image_size.1 : ℚ)) (x2 + pad_x)),
   pyInt (min ((image_size.2 : ℚ)) (y2 + pad_y))]

/-- Embedding of `cv2.resize(src, (dstW, dstH), interpolation=cv2.INTER_NEAREST)` on a
binary grid: destination pixel `(y, x)` reads source pixel
`(⌊y·srcH/dstH⌋, ⌊x·srcW/dstW⌋)`. -/
def resizeNearest (src : Grid Bool) (dstW dstH : ℕ) : Grid Bool :=
  let srcH := gridH src
  let srcW := gridW src
  (List.range dstH).map fun y =>
    (List.range dstW).map fun x =>
      (src.getD (min (srcH - 1) (y * srcH / dstH)) []).getD
        (min (srcW - 1) (x * srcW / dstW)) false

/-- Embedding of `PIL.Image.resize(..., Image.Resampling.NEAREST)` on a binary grid:
destination pixel centres are mapped into the source grid. -/
def resizeNearestPIL (src : Grid Bool) (dstW dstH : ℕ) : Grid Bool :=
  let srcH := gridH src
  let srcW := gridW src
  (List.range dstH).map fun y =>
    (List.range dstW).map fun x =>
      (src.getD (min (srcH - 1) ((2 * y + 1) * srcH / (2 * dstH))) []).getD
        (min (srcW - 1) ((2 * x + 1) * srcW / (2 * dstW))) false

/-- The background mask resized to the resolution of the first proposal mask
(`bg_resized` in `filter_masks_by_background`). -/
def bgResizedOf (fastsam_masks : List (Grid ℚ)) (background_mask : Grid Bool) :
    Grid Bool :=
  resizeNearest background_mask (gridW (fastsam_masks.headD []))
    (gridH (fastsam_masks.headD []))

/-- The `for i, mask in enumerate(fastsam_masks)` loop of
`filter_masks_by_background`, with `i` starting at the given index: returns
the retained indices and the recorded overlap ratios. -/
def fmbbLoop (bg : Grid Bool) (threshold : ℚ) :
    List (Grid ℚ) → ℕ → List ℕ × List ℚ
  | [], _ => ([], [])
  | m :: rest, i =>
    let binary_mask := binarize m
    let mask_area := pixelCount binary_mask
    let tail := fmbbLoop bg threshold rest (i + 1)
    if mask_area = 0 then (tail.1, 0 :: tail.2)
    else
      let overlap := pixelCount (andGrid binary_mask bg)
      let overlap_ratio : ℚ := (overlap : ℚ) / (mask_area : ℚ)
      (if overlap_ratio < threshold then i :: tail.1 else tail.1,
       overlap_ratio :: tail.2)

/-- Embedding of `filter_masks_by_background` from `server.py`. -/
def filter_masks_by_background (fastsam_masks : List (Grid ℚ))
    (background_mask : Grid Bool) (threshold : ℚ) : List ℕ × List ℚ :=
  fmbbLoop (bgResizedOf fastsam_masks background_mask) threshold fastsam_masks 0

/-- Pure-`ℕ` evaluation of the color formula from a hue numerator
`M = (index * 618033988749895) % 10^15` (the hue is `M / 10^15`).  Used to
make the collision-freeness check over index ranges kernel-computable. -/
def fastColorFrom (M : ℕ) : List ℤ :=
  let s := 6 * M / 1000000000000000
  let m := 6 * M % 1000000000000000
  let v : ℤ := 229
  let p : ℤ := 68
  let t : ℤ := ((6885 * 1000000000000000 + 16065 * m) / (100 * 1000000000000000) : ℕ)
  let q : ℤ := ((22950 * 1000000000000000 - 16065 * m) / (100 * 1000000000000000) : ℕ)
  if s = 0 then [v, t, p]
  else if s = 1 then [q, v, p]
  else if s = 2 then [p, v, t]
  else if s = 3 then [p, q, v]
  else if s = 4 then [t, p, v]
  else [v, p, q]

/-- Pure-`ℕ` evaluation of `generate_distinct_color`. -/
def fastColor (i : ℕ) : List ℤ :=
  fastColorFrom ((i * 618033988749895) % 1000000000000000)

lemma pyInt_natCast_div (a b : ℕ) :
    pyInt ((a : ℚ) / (b : ℚ)) = ((a / b : ℕ) : ℤ) := by
  have h0 : (0 : ℚ) ≤ (a : ℚ) / (b : ℚ) := by positivity
  unfold pyInt
  rw [if_pos h0, ← Int.natCast_floor_eq_floor h0, Nat.floor_div_eq_div]

lemma natCast_div_sub_div_eq_mod (a b : ℕ) (hb : b ≠ 0) :
    (a : ℚ) / (b : ℚ) - ((a / b : ℕ) : ℚ) = ((a % b : ℕ) : ℚ) / (b : ℚ) := by
  have hb' : (b : ℚ) ≠ 0 := Nat.cast_ne_zero.mpr hb
  rw [div_sub' _ _ _ hb', div_eq_div_iff hb' hb']
  have h : b * (a / b) + a % b = a := Nat.div_add_mod a b
  have h' : ((b * (a / b) + a % b : ℕ) : ℚ) = (a : ℚ) := by rw [h]
  push_cast at h' ⊢
  nlinarith [h']

lemma pyInt_v_channel : pyInt ((9 : ℚ)/10 * 255) = 229 := by
  have h : (9 : ℚ)/10 * 255 = ((459 : ℕ) : ℚ) / ((2 : ℕ) : ℚ) := by norm_num
  rw [h, pyInt_natCast_div]
  norm_num

lemma pyInt_p_channel : pyInt ((9 : ℚ)/10 * (1 - 7/10) * 255) = 68 := by
  have h : (9 : ℚ)/10 * (1 - 7/10) * 255 = ((1377 : ℕ) : ℚ) / ((20 : ℕ) : ℚ) := by norm_num
  rw [h, pyInt_natCast_div]
  norm_num

lemma pyInt_t_channel (m : ℕ) :
    pyInt ((9 : ℚ)/10 * (1 - 7/10 * (1 - (m : ℚ) / 1000000000000000)) * 255)
      = (((6885 * 1000000000000000 + 16065 * m) / (100 * 1000000000000000) : ℕ) : ℤ) := by
  have h : (9 : ℚ)/10 * (1 - 7/10 * (1 - (m : ℚ) / 1000000000000000)) * 255
      = ((6885 * 1000000000000000 + 16065 * m : ℕ) : ℚ)
        / ((100 * 1000000000000000 : ℕ) : ℚ) := by
    push_cast
    field_simp
    ring
  rw [h, pyInt_natCast_div]

lemma pyInt_q_channel (m : ℕ) (hm : m ≤ 1000000000000000) :
    pyInt ((9 : ℚ)/10 * (1 - 7/10 * ((m : ℚ) / 1000000000000000)) * 255)
      = (((22950 * 1000000000000000 - 16065 * m) / (100 * 1000000000000000) : ℕ) : ℤ) := by
  have hle : 16065 * m ≤ 22950 * 1000000000000000 := by nlinarith
  have h : (9 : ℚ)/10 * (1 - 7/10 * ((m : ℚ) / 1000000000000000)) * 255
      = ((22950 * 1000000000000000 - 16065 * m : ℕ) : ℚ)
        / ((100 * 1000000000000000 : ℕ) : ℚ) := by
    rw [Nat.cast_sub hle]
    push_cast
    field_simp
    ring
  rw [h, pyInt_natCast_div]


lemma pyInt_half_459 : pyInt (459 / 2) = 229 := by
  have h : (459 : ℚ) / 2 = ((459 : ℕ) : ℚ) / ((2 : ℕ) : ℚ) := by norm_num
  rw [h, pyInt_natCast_div]
  norm_num

lemma pyInt_1377_20 : pyInt (1377 / 20) = 68 := by
  have h : (1377 : ℚ) / 20 = ((1377 : ℕ) : ℚ) / ((20 : ℕ) : ℚ) := by norm_num
  rw [h, pyInt_natCast_div]
  norm_num

lemma pyInt_t_channel' (m : ℕ) :
    pyInt ((9 : ℚ)/10 * (1 - 7/10 * (1 - (m : ℚ) / 1000000000000000)) * 255)
      = (6885000000000000000 + 16065 * (m : ℤ)) / 100000000000000000 := by
  rw [pyInt_t_channel, Int.natCast_div]
  push_cast
  norm_num

lemma pyInt_q_channel' (m : ℕ) (hm : m ≤ 1000000000000000) :
    pyInt ((9 : ℚ)/10 * (1 - 7/10 * ((m : ℚ) / 1000000000000000)) * 255)
      = ((22950000000000000000 - 16065 * m : ℕ) : ℤ) / 100000000000000000 := by
  rw [pyInt_q_channel m hm, Int.natCast_div]
  norm_num

lemma color_of_hueNum (M : ℕ) (hM : M < 1000000000000000) :
    [pyInt ((hsv_to_rgb ((M : ℚ) / 1000000000000000) (7/10) (9/10)).1 * 255),
     pyInt ((hsv_to_rgb ((M : ℚ) / 1000000000000000) (7/10) (9/10)).2.1 * 255),
     pyInt ((hsv_to_rgb ((M : ℚ) / 1000000000000000) (7/10) (9/10)).2.2 * 255)]
      = fastColorFrom M := by
  have hs7 : ¬((7 : ℚ)/10 = 0) := by norm_num
  have h6 : (M : ℚ) / 1000000000000000 * 6
      = ((6 * M : ℕ) : ℚ) / ((1000000000000000 : ℕ) : ℚ) := by
    push_cast
    ring
  have hi0 : pyInt ((M : ℚ) / 1000000000000000 * 6)
      = ((6 * M / 1000000000000000 : ℕ) : ℤ) := by
    rw [h6, pyInt_natCast_div]
  simp only [hsv_to_rgb, if_neg hs7]
  rw [hi0]
  have hf : (M : ℚ) / 1000000000000000 * 6 - (((6 * M / 1000000000000000 : ℕ) : ℤ) : ℚ)
      = ((6 * M % 1000000000000000 : ℕ) : ℚ) / 1000000000000000 := by
    rw [h6, Int.cast_natCast,
      natCast_div_sub_div_eq_mod (6 * M) 1000000000000000 (by norm_num)]
    norm_num
  rw [hf]
  simp only [fastColorFrom]
  have hs'lt : 6 * M / 1000000000000000 < 6 := Nat.div_lt_of_lt_mul (by nlinarith)
  have hmlt : 6 * M % 1000000000000000 ≤ 1000000000000000 :=
    le_of_lt (Nat.mod_lt _ (by norm_num))
  obtain ⟨s', hs'⟩ : ∃ s', 6 * M / 1000000000000000 = s' := ⟨_, rfl⟩
  obtain ⟨m, hm⟩ : ∃ m, 6 * M % 1000000000000000 = m := ⟨_, rfl⟩
  rw [hs'] at hs'lt ⊢
  rw [hm] at hmlt ⊢
  interval_cases s'
  · norm_num
    exact ⟨pyInt_half_459, pyInt_t_channel' m, pyInt_1377_20⟩
  · norm_num
    exact ⟨pyInt_q_channel' m hmlt, pyInt_half_459, pyInt_1377_20⟩
  · norm_num
    exact ⟨pyInt_1377_20, pyInt_half_459, pyInt_t_channel' m⟩
  · norm_num
    exact ⟨pyInt_1377_20, pyInt_q_channel' m hmlt, pyInt_half_459⟩
  · norm_num
    exact ⟨pyInt_t_channel' m, pyInt_1377_20, pyInt_half_459⟩
  · norm_num
    exact ⟨pyInt_half_459, pyInt_1377_20, pyInt_q_channel' m hmlt⟩

theorem generate_distinct_color_eq_fastColor (i : ℕ) :
    generate_distinct_color i = fastColor i := by
  have hmul : (i : ℚ) * (618033988749895 / 1000000000000000)
      = ((i * 618033988749895 : ℕ) : ℚ) / ((1000000000000000 : ℕ) : ℚ) := by
    push_cast
    ring
  have hM : (i * 618033988749895) % 1000000000000000 < 1000000000000000 :=
    Nat.mod_lt _ (by norm_num)
  have hhue : fract1 ((i : ℚ) * (618033988749895 / 1000000000000000))
      = (((i * 618033988749895) % 1000000000000000 : ℕ) : ℚ) / 1000000000000000 := by
    unfold fract1
    rw [hmul]
    have hfl : ⌊((i * 618033988749895 : ℕ) : ℚ) / ((1000000000000000 : ℕ) : ℚ)⌋
        = ((i * 618033988749895 / 1000000000000000 : ℕ) : ℤ) := by
      rw [← Int.natCast_floor_eq_floor (by positivity), Nat.floor_div_eq_div]
    rw [hfl, Int.cast_natCast, natCast_div_sub_div_eq_mod _ _ (by norm_num)]
    norm_num
  simp only [generate_distinct_color, fastColor]
  rw [hhue]
  exact color_of_hueNum _ hM


/-- Pack an RGB triple into a single `ℕ` key (used only as a computational
device: distinctness of keys implies distinctness of the colors). -/
def keyOfColor : List ℤ → ℕ
  | [r, g, b] => r.toNat * 65536 + g.toNat * 256 + b.toNat
  | _ => 0

/-- Fuel-based merge of two lists (fuel only bounds recursion; the
permutation property holds for any fuel). -/
def mergeF : ℕ → List ℕ → List ℕ → List ℕ
  | 0, l, r => l ++ r
  | _ + 1, [], r => r
  | _ + 1, x :: xs, [] => x :: xs
  | fuel + 1, x :: xs, y :: ys =>
    if x ≤ y then x :: mergeF fuel xs (y :: ys) else y :: mergeF fuel (x :: xs) ys

/-- Fuel-based merge sort; `N` bounds the fuel handed to every merge. -/
def msortF (N : ℕ) : ℕ → List ℕ → List ℕ
  | 0, l => l
  | fuel + 1, l =>
    if l.length ≤ 1 then l
    else
      mergeF N (msortF N fuel (l.take (l.length / 2)))
        (msortF N fuel (l.drop (l.length / 2)))

/-- Check that a list of naturals is strictly ascending. -/
def strictAscend : List ℕ → Bool
  | [] => true
  | [_] => true
  | x :: y :: ys => decide (x < y) && strictAscend (y :: ys)

lemma mergeF_perm : ∀ (fuel : ℕ) (l r : List ℕ), List.Perm (mergeF fuel l r) (l ++ r)
  | 0, _, _ => List.Perm.refl _
  | _ + 1, [], r => List.Perm.refl _
  | _ + 1, _ :: _, [] => by simp [mergeF]
  | fuel + 1, x :: xs, y :: ys => by
    show List.Perm
        (if x ≤ y then x :: mergeF fuel xs (y :: ys) else y :: mergeF fuel (x :: xs) ys)
        (x :: xs ++ y :: ys)
    split
    · exact (mergeF_perm fuel xs (y :: ys)).cons x
    · exact ((mergeF_perm fuel (x :: xs) ys).cons y).trans List.perm_middle.symm

lemma msortF_perm (N : ℕ) : ∀ (fuel : ℕ) (l : List ℕ), List.Perm (msortF N fuel l) l
  | 0, _ => List.Perm.refl _
  | fuel + 1, l => by
    show List.Perm
        (if l.length ≤ 1 then l
        else
          mergeF N (msortF N fuel (l.take (l.length / 2)))
            (msortF N fuel (l.drop (l.length / 2)))) l
    split
    · exact List.Perm.refl _
    · refine (mergeF_perm _ _ _).trans ?_
      refine ((msortF_perm N fuel _).append (msortF_perm N fuel _)).trans ?_
      rw [List.take_append_drop]

lemma strictAscend_chain' : ∀ l : List ℕ, strictAscend l = true → List.Chain' (· < ·) l
  | [] => by intro ; exact List.chain'_nil
  | [_] => by intro ; exact List.chain'_singleton _
  | x :: y :: ys => by
    intro h
    simp only [strictAscend, Bool.and_eq_true, decide_eq_true_eq] at h
    exact List.Chain'.cons h.1 (strictAscend_chain' (y :: ys) h.2)

lemma strictAscend_nodup (l : List ℕ) (h : strictAscend l = true) : l.Nodup := by
  have hp : List.Pairwise (· < ·) l :=
    List.chain'_iff_pairwise.mp (strictAscend_chain' l h)
  exact hp.imp Nat.ne_of_lt

set_option maxRecDepth 40000 in
lemma fastColor_keys_ascend :
    strictAscend (msortF 1300 16 ((List.range 611).map (fun i => keyOfColor (fastColor i))))
      = true := by decide

theorem fastColor_nodup_611 : ((List.range 611).map fastColor).Nodup := by
  have hnd : ((List.range 611).map (fun i => keyOfColor (fastColor i))).Nodup := by
    refine List.Perm.nodup (msortF_perm 1300 16 _) ?_
    exact strictAscend_nodup _ fastColor_keys_ascend
  have hmm : ((List.range 611).map fastColor).map keyOfColor
      = (List.range 611).map (fun i => keyOfColor (fastColor i)) := by
    rw [List.map_map]
    rfl
  refine List.Nodup.of_map keyOfColor ?_
  rw [hmm]
  exact hnd

/-- The overlap-ratio value recorded for one binarized mask against a (resized)
background mask: `|mask AND background| / |mask|`, and 0 for an empty mask. -/
def overlapRatioVal (binary : Grid Bool) (bg : Grid Bool) : ℚ :=
  if pixelCount binary = 0 then 0
  else (pixelCount (andGrid binary bg) : ℚ) / (pixelCount binary : ℚ)

/-- Retention predicate of the background-exclusion loop: kept iff the
binarized mask is nonempty and its overlap ratio is strictly below the
threshold. -/
def bgKeep (bg : Grid Bool) (thr : ℚ) (m : Grid ℚ) : Bool :=
  decide (pixelCount (binarize m) ≠ 0) &&
  decide ((pixelCount (andGrid (binarize m) bg) : ℚ)
    / (pixelCount (binarize m) : ℚ) < thr)

lemma fmbbLoop_fst (bg : Grid Bool) (thr : ℚ) :
    ∀ (l : List (Grid ℚ)) (k : ℕ),
      (fmbbLoop bg thr l k).1 =
        ((l.enumFrom k).filter (fun p => bgKeep bg thr p.2)).map Prod.fst
  | [], _ => rfl
  | m :: rest, k => by
    have ih := fmbbLoop_fst bg thr rest (k + 1)
    by_cases h : pixelCount (binarize m) = 0
    · simp [fmbbLoop, bgKeep, List.enumFrom_cons, List.filter_cons, h, ih]
    · by_cases h2 : (pixelCount (andGrid (binarize m) bg) : ℚ)
          / (pixelCount (binarize m) : ℚ) < thr
      · simp [fmbbLoop, bgKeep, List.enumFrom_cons, List.filter_cons, h, h2, ih]
      · simp [fmbbLoop, bgKeep, List.enumFrom_cons, List.filter_cons, h, h2, ih]

lemma fmbbLoop_snd (bg : Grid Bool) (thr : ℚ) :
    ∀ (l : List (Grid ℚ)) (k : ℕ),
      (fmbbLoop bg thr l k).2 =
        l.map (fun m => overlapRatioVal (binarize m) bg)
  | [], _ => rfl
  | m :: rest, k => by
    have ih := fmbbLoop_snd bg thr rest (k + 1)
    by_cases h : pixelCount (binarize m) = 0
    · simp [fmbbLoop, overlapRatioVal, h, ih]
    · by_cases h2 : (pixelCount (andGrid (binarize m) bg) : ℚ)
          / (pixelCount (binarize m) : ℚ) < thr
      · simp [fmbbLoop, overlapRatioVal, h, h2, ih]
      · simp [fmbbLoop, overlapRatioVal, h, h2, ih]

lemma countP_zipWith_and_le (ra rb : List Bool) :
    (List.zipWith (fun x y => x && y) ra rb).countP id ≤ ra.countP id := by
  induction ra generalizing rb with
  | nil => simp
  | cons x xs ih =>
    cases rb with
    | nil => simp
    | cons y ys =>
      have h := ih ys
      cases x <;> cases y <;> simp [List.countP_cons] <;> omega

lemma pixelCount_andGrid_le (a b : Grid Bool) :
    pixelCount (andGrid a b) ≤ pixelCount a := by
  unfold pixelCount andGrid
  induction a generalizing b with
  | nil => simp
  | cons ra rs ih =>
    cases b with
    | nil => simp
    | cons rb bs =>
      simp only [List.zipWith_cons_cons, List.map_cons, List.sum_cons]
      exact Nat.add_le_add (countP_zipWith_and_le ra rb) (ih bs)

lemma mem_map_fst_filter_enum {α : Type} (d : α) (l : List α) (p : α → Bool)
    (i : ℕ) (hi : i < l.length) :
    (i ∈ ((l.enum.filter (fun q => p q.2)).map Prod.fst)) ↔ p (l.getD i d) = true := by
  rw [List.mem_map]
  constructor
  · rintro ⟨⟨j, x⟩, hmem, hfst⟩
    rw [List.mem_filter] at hmem
    obtain ⟨henum, hpred⟩ := hmem
    rw [List.mk_mem_enum_iff_getElem?] at henum
    have hj : j = i := hfst
    subst hj
    rw [List.getD_eq_getElem?_getD, henum] at *
    exact hpred
  · intro hp
    refine ⟨(i, l.getD i d), ?_, rfl⟩
    rw [List.mem_filter, List.mk_mem_enum_iff_getElem?]
    refine ⟨?_, hp⟩
    rw [List.getD_eq_getElem?_getD, List.getElem?_eq_getElem hi]
    rfl

/-- C4 counterexample: the color assigner is not injective on the index range
0..999 — indices 1 and 611 receive the identical RGB triple, refuting
`color(i) ≠ color(j)` for all distinct `i, j` in 0..999. -/
theorem generate_distinct_color_collision_1_611 :
    generate_distinct_color 1 = generate_distinct_color 611 ∧
    (1 : ℕ) ≠ 611 ∧ (1 : ℕ) ≤ 999 ∧ (611 : ℕ) ≤ 999 := by
  refine ⟨?_, by decide, by decide, by decide⟩
  rw [generate_distinct_color_eq_fastColor 1, generate_distinct_color_eq_fastColor 611]
  decide

/-- C4 (amended): the color assigner is a pure function of the index, computed
as hue = (index * 0.6180339887...) mod 1.0 with saturation 0.7 and value 0.9
converted HSV→RGB, channels scaled to [0,255] and truncated — and it is
injective on the range 0..610 (the largest prefix before the first collision,
which occurs at indices 1 and 611). -/
theorem generate_distinct_color_pure_and_distinct_below_611 :
    (∀ i : ℕ, generate_distinct_color i =
      [pyInt ((hsv_to_rgb (fract1 ((i : ℚ) * (618033988749895 / 1000000000000000)))
          (7/10) (9/10)).1 * 255),
       pyInt ((hsv_to_rgb (fract1 ((i : ℚ) * (618033988749895 / 1000000000000000)))
          (7/10) (9/10)).2.1 * 255),
       pyInt ((hsv_to_rgb (fract1 ((i : ℚ) * (618033988749895 / 1000000000000000)))
          (7/10) (9/10)).2.2 * 255)]) ∧
    ((List.range 611).map generate_distinct_color).Nodup := by
  constructor
  · intro i
    rfl
  · have h : (List.range 611).map generate_distinct_color
        = (List.range 611).map fastColor :=
      List.map_congr_left (fun i _ => generate_distinct_color_eq_fastColor i)
    rw [h]
    exact fastColor_nodup_611

lemma pyInt_nonneg (q : ℚ) (h : 0 ≤ q) : 0 ≤ pyInt q := by
  unfold pyInt
  rw [if_pos h]
  exact Int.floor_nonneg.mpr h

lemma pyInt_le_natCast (q : ℚ) (n : ℕ) (h0 : 0 ≤ q) (h : q ≤ (n : ℚ)) :
    pyInt q ≤ (n : ℤ) := by
  unfold pyInt
  rw [if_pos h0]
  rw [Int.floor_le_iff]
  push_cast
  linarith

/-- C3 counterexample: for the rectangle (-20,-20,-10,-10) entirely outside a
100×100 image with padding ratio 0.1, `expand_bbox` returns [0, 0, -9, -9]:
the upper corner coordinates are negative, so the result is not contained in
[0, image_size). -/
theorem expand_bbox_out_of_bounds_cex :
    expand_bbox (-20, -20, -10, -10) (100, 100) (1/10) = [0, 0, -9, -9] ∧
    ¬ (∀ c ∈ expand_bbox (-20, -20, -10, -10) (100, 100) (1/10),
        0 ≤ c ∧ c ≤ 100) := by
  have hval : expand_bbox (-20, -20, -10, -10) (100, 100) (1/10) = [0, 0, -9, -9] := by
    with_unfolding_all decide
  refine ⟨hval, fun h => ?_⟩
  have hmem : (-9 : ℤ) ∈ expand_bbox (-20, -20, -10, -10) (100, 100) (1/10) := by
    rw [hval]
    decide
  exact absurd (h (-9) hmem).1 (by decide)

/-- C3 (amended): `expand_bbox` clamps the low corner below by 0 and the high
corner above by the image size unconditionally; full containment of all four
returned coordinates in [0, W]×[0, H] holds for input rectangles that are
themselves within the image bounds (with nonnegative padding ratio), but not
for arbitrary out-of-bounds rectangles. -/
theorem expand_bbox_within_bounds (x1 y1 x2 y2 : ℚ) (W H : ℕ) (pr : ℚ)
    (hx1 : 0 ≤ x1) (hx12 : x1 ≤ x2) (hx2 : x2 ≤ (W : ℚ))
    (hy1 : 0 ≤ y1) (hy12 : y1 ≤ y2) (hy2 : y2 ≤ (H : ℚ))
    (hpr : 0 ≤ pr) :
    0 ≤ (expand_bbox (x1, y1, x2, y2) (W, H) pr).getD 0 0 ∧
    (expand_bbox (x1, y1, x2, y2) (W, H) pr).getD 0 0 ≤ (W : ℤ) ∧
    0 ≤ (expand_bbox (x1, y1, x2, y2) (W, H) pr).getD 1 0 ∧
    (expand_bbox (x1, y1, x2, y2) (W, H) pr).getD 1 0 ≤ (H : ℤ) ∧
    0 ≤ (expand_bbox (x1, y1, x2, y2) (W, H) pr).getD 2 0 ∧
    (expand_bbox (x1, y1, x2, y2) (W, H) pr).getD 2 0 ≤ (W : ℤ) ∧
    0 ≤ (expand_bbox (x1, y1, x2, y2) (W, H) pr).getD 3 0 ∧
    (expand_bbox (x1, y1, x2, y2) (W, H) pr).getD 3 0 ≤ (H : ℤ) := by
  have hpadx : 0 ≤ (x2 - x1) * pr := mul_nonneg (by linarith) hpr
  have hpady : 0 ≤ (y2 - y1) * pr := mul_nonneg (by linarith) hpr
  have c0 : 0 ≤ pyInt (max 0 (x1 - (x2 - x1) * pr)) :=
    pyInt_nonneg _ (le_max_left _ _)
  have c0' : pyInt (max 0 (x1 - (x2 - x1) * pr)) ≤ (W : ℤ) :=
    pyInt_le_natCast _ _ (le_max_left _ _) (max_le (by positivity) (by linarith))
  have c1 : 0 ≤ pyInt (max 0 (y1 - (y2 - y1) * pr)) :=
    pyInt_nonneg _ (le_max_left _ _)
  have c1' : pyInt (max 0 (y1 - (y2 - y1) * pr)) ≤ (H : ℤ) :=
    pyInt_le_natCast _ _ (le_max_left _ _) (max_le (by positivity) (by linarith))
  have c2 : 0 ≤ pyInt (min ((W : ℚ)) (x2 + (x2 - x1) * pr)) :=
    pyInt_nonneg _ (le_min (by positivity) (by linarith))
  have c2' : pyInt (min ((W : ℚ)) (x2 + (x2 - x1) * pr)) ≤ (W : ℤ) :=
    pyInt_le_natCast _ _ (le_min (by positivity) (by linarith)) (min_le_left _ _)
  have c3 : 0 ≤ pyInt (min ((H : ℚ)) (y2 + (y2 - y1) * pr)) :=
    pyInt_nonneg _ (le_min (by positivity) (by linarith))
  have c3' : pyInt (min ((H : ℚ)) (y2 + (y2 - y1) * pr)) ≤ (H : ℤ) :=
    pyInt_le_natCast _ _ (le_min (by positivity) (by linarith)) (min_le_left _ _)
  simp only [expand_bbox, List.getD_cons_zero, List.getD_cons_succ]
  exact ⟨c0, c0', c1, c1', c2, c2', c3, c3'⟩

/-- Witness for `expand_bbox_within_bounds` at the in-bounds rectangle
(1,2,5,7) in a 10×9 image with padding ratio 0.1. -/
theorem expand_bbox_within_bounds_witness :
    0 ≤ (expand_bbox (1, 2, 5, 7) (10, 9) (1/10)).getD 0 0 ∧
    (expand_bbox (1, 2, 5, 7) (10, 9) (1/10)).getD 0 0 ≤ ((10 : ℕ) : ℤ) ∧
    0 ≤ (expand_bbox (1, 2, 5, 7) (10, 9) (1/10)).getD 1 0 ∧
    (expand_bbox (1, 2, 5, 7) (10, 9) (1/10)).getD 1 0 ≤ ((9 : ℕ) : ℤ) ∧
    0 ≤ (expand_bbox (1, 2, 5, 7) (10, 9) (1/10)).getD 2 0 ∧
    (expand_bbox (1, 2, 5, 7) (10, 9) (1/10)).getD 2 0 ≤ ((10 : ℕ) : ℤ) ∧
    0 ≤ (expand_bbox (1, 2, 5, 7) (10, 9) (1/10)).getD 3 0 ∧
    (expand_bbox (1, 2, 5, 7) (10, 9) (1/10)).getD 3 0 ≤ ((9 : ℕ) : ℤ) :=
  expand_bbox_within_bounds 1 2 5 7 10 9 (1/10) (by norm_num) (by norm_num)
    (by norm_num) (by norm_num) (by norm_num) (by norm_num) (by norm_num)

/-- C2 counterexample: an all-zero proposal mask (empty after binarization) has
a recorded overlap ratio of 0.0, strictly below the threshold 0.5, yet the
background-exclusion step does not retain it — refuting "retained iff
overlap ratio < threshold". -/
theorem background_filter_iff_cex :
    ¬ (0 ∈ (filter_masks_by_background [[[0]]] [[true]] (1/2)).1 ↔
        (filter_masks_by_background [[[0]]] [[true]] (1/2)).2.getD 0 0 < 1/2) ∧
    (filter_masks_by_background [[[0]]] [[true]] (1/2)).1 = [] ∧
    (filter_masks_by_background [[[0]]] [[true]] (1/2)).2 = [0] := by
  refine ⟨?_, ?_, ?_⟩ <;> with_unfolding_all decide

/-- C2 (amended): under 'segformer' background exclusion a candidate proposal
is retained by the background-exclusion step iff its binarized mask is
nonempty and its overlap ratio with the background mask is strictly less than
the threshold (so a ratio exactly at the threshold is excluded, and an
empty-mask candidate is dropped despite its recorded ratio of 0.0). -/
theorem background_filter_retained_iff (masks : List (Grid ℚ)) (bg : Grid Bool)
    (thr : ℚ) :
    ((filter_masks_by_background masks bg thr).1 =
      ((masks.enum.filter (fun p => bgKeep (bgResizedOf masks bg) thr p.2)).map
        Prod.fst)) ∧
    (∀ i, i < masks.length →
      (i ∈ (filter_masks_by_background masks bg thr).1 ↔
        (pixelCount (binarize (masks.getD i [])) ≠ 0 ∧
         (pixelCount (andGrid (binarize (masks.getD i [])) (bgResizedOf masks bg)) : ℚ)
           / (pixelCount (binarize (masks.getD i [])) : ℚ) < thr))) := by
  have hmain : (filter_masks_by_background masks bg thr).1 =
      ((masks.enum.filter (fun p => bgKeep (bgResizedOf masks bg) thr p.2)).map
        Prod.fst) := by
    unfold filter_masks_by_background
    rw [fmbbLoop_fst]
    rfl
  refine ⟨hmain, fun i hi => ?_⟩
  rw [hmain, mem_map_fst_filter_enum [] masks _ i hi]
  unfold bgKeep
  simp [-ne_eq]

/-- Witness for `background_filter_retained_iff` at a concrete one-mask input:
the single 1×1 mask with probability 1 is disjoint from the background, so it
is retained. -/
theorem background_filter_retained_iff_witness :
    0 ∈ (filter_masks_by_background [[[1]]] [[false]] (1/2)).1 :=
  ((background_filter_retained_iff [[[1]]] [[false]] (1/2)).2 0 (by decide)).mpr
    (by refine ⟨?_, ?_⟩ <;> with_unfolding_all decide)

/-- C5: the list of overlap ratios recorded by `filter_masks_by_background` is
exactly `|mask AND background| / |mask|` per mask (0.0 for an empty mask,
avoiding division by zero), where the background mask is first resized to the
proposal resolution; the ratio is 0 for a disjoint mask, 1 for a mask fully
contained in the background mask, and always lies in [0, 1]. -/
theorem overlap_ratio_spec (masks : List (Grid ℚ)) (bg : Grid Bool) (thr : ℚ) :
    ((filter_masks_by_background masks bg thr).2 =
      masks.map (fun m => overlapRatioVal (binarize m) (bgResizedOf masks bg))) ∧
    (∀ b g : Grid Bool, pixelCount b = 0 → overlapRatioVal b g = 0) ∧
    (∀ b g : Grid Bool, pixelCount (andGrid b g) = 0 → overlapRatioVal b g = 0) ∧
    (∀ b g : Grid Bool, andGrid b g = b → pixelCount b ≠ 0 →
      overlapRatioVal b g = 1) ∧
    (∀ b g : Grid Bool, 0 ≤ overlapRatioVal b g ∧ overlapRatioVal b g ≤ 1) := by
  refine ⟨?_, ?_, ?_, ?_, ?_⟩
  · unfold filter_masks_by_background
    rw [fmbbLoop_snd]
  · intro b g h
    simp [overlapRatioVal, h]
  · intro b g h
    unfold overlapRatioVal
    split
    · rfl
    · rw [h]
      simp
  · intro b g h hne
    unfold overlapRatioVal
    rw [if_neg hne, h, div_self (by exact_mod_cast hne)]
  · intro b g
    unfold overlapRatioVal
    split
    · norm_num
    · constructor
      · positivity
      · rw [div_le_one (by positivity)]
        exact_mod_cast pixelCount_andGrid_le b g

/-- Witness for `overlap_ratio_spec` at concrete 2×2 masks: a mask fully
contained in the background mask gets ratio 1, and a disjoint one gets 0. -/
theorem overlap_ratio_spec_witness :
    (filter_masks_by_background [[[1, 0], [0, 0]], [[0, 1], [0, 0]]]
        [[true, false], [false, false]] (1/2)).2 =
      [1, 0] := by
  rw [(overlap_ratio_spec [[[1, 0], [0, 0]], [[0, 1], [0, 0]]]
      [[true, false], [false, false]] (1/2)).1]
  with_unfolding_all decide

/-! The `/segment` endpoint pipeline (`segment_image` in `server.py`).

The request environment carries the image-decoding outcome and the external
collaborators (proposal model output, SegFormer background mask, the LaMa
inpainting model, PIL image resize/crop, cv2 dilation) as data and abstract
functions over an abstract image type `Img`; the pipeline itself — capping,
background exclusion, area filtering, id assignment, inpainting orchestration
with its local exception handling, and payload assembly — is embedded
concretely.  Alongside the response, the model returns how many times each
collaborator was invoked. -/

/-- The `exclude_background` request enum. -/
inductive ExcludeBackground
  | none
  | segformer
  | heuristic
deriving DecidableEq, Repr

/-- The `/segment` request parameters (schema `SegmentRequest`). -/
structure SegmentRequest where
  max_masks : ℕ
  min_area : ℚ
  combined_inpaint : Bool
  dilate_pixels : ℕ
  inpaint_scale : ℚ
  exclude_background : ExcludeBackground
  background_overlap_threshold : ℚ
deriving Repr

/-- One surviving proposal after filtering (`filtered_masks` list entries). -/
structure FilteredMask where
  original_idx : ℕ
  mask_id : ℕ
  binary_mask : Grid Bool
  bbox : Option (ℚ × ℚ × ℚ × ℚ)
deriving Repr

/-- Request environment: decoded-image outcome, collaborator outputs and the
abstract collaborator functions. -/
structure SegmentEnv (Img : Type) where
  decoded : Except String Img
  imageW : ℕ
  imageH : ℕ
  proposals : Option (List (Grid ℚ))
  boxes : Option (List (ℚ × ℚ × ℚ × ℚ))
  segformer_bg : Grid Bool
  lama : Img → Grid Bool → Except String Img
  resizeImg : Img → ℤ → ℤ → Img
  cropImg : Img → ℤ → ℤ → ℤ → ℤ → Img
  dilateGrid : ℕ → Grid Bool → Grid Bool

/-- One mask payload of the response (`masks_data` entries).  Encoded images
are carried as their mathematical content (the cropped binary grid, the
inpainted `Img`). -/
structure MaskPayload (Img : Type) where
  id : ℕ
  data : Grid Bool
  width : ℤ
  height : ℤ
  bbox : Option (ℚ × ℚ × ℚ × ℚ)
  color : List ℤ
  inpaint_data : Option Img
  inpaint_bbox : Option (List ℤ)

/-- The `/segment` JSON response: on failure `success = false` with an error
message and empty masks; on success the count, payloads, image size and the
optional combined-inpaint artifact. -/
structure SegmentResponse (Img : Type) where
  success : Bool
  error : Option String
  count : Option ℕ
  masks : List (MaskPayload Img)
  image_size : Option (ℕ × ℕ)
  combined_inpaint_data : Option Img

/-- Number of calls issued to each external collaborator while serving one
request. -/
structure Calls where
  proposal : ℕ
  segformer : ℕ
  inpaint : ℕ
deriving DecidableEq, Repr

/-- Embedding of `masks[0].shape if len(masks) > 0 else (1, 1)`: (height, width). -/
def maskDims (masks : List (Grid ℚ)) : ℕ × ℕ :=
  match masks with
  | [] => (1, 1)
  | m :: _ => (gridH m, gridW m)

/-- The `background_excluded_indices` computed before the filtering loop:
SegFormer filtering under 'segformer', pass-through of all candidate indices
under 'heuristic' (not implemented) and 'none'. -/
def backgroundExcludedIndices (req : SegmentRequest) (masks : List (Grid ℚ))
    (bg : Grid Bool) : List ℕ :=
  match req.exclude_background with
  | ExcludeBackground.segformer =>
    (filter_masks_by_background (masks.take req.max_masks) bg
      req.background_overlap_threshold).1
  | ExcludeBackground.heuristic => List.range (min masks.length req.max_masks)
  | ExcludeBackground.none => List.range (min masks.length req.max_masks)

/-- The "first pass" filtering loop over `enumerate(masks[:max_masks])`:
skip candidates not in `background_excluded_indices`, binarize, drop when the
pixel-count ratio against `total_area` is below `min_area`, and assign dense
`mask_id`s to survivors. -/
def buildFilteredAux (bgIdx : List ℕ) (boxes : Option (List (ℚ × ℚ × ℚ × ℚ)))
    (min_area : ℚ) (total_area : ℕ) :
    List (ℕ × Grid ℚ) → ℕ → List FilteredMask
  | [], _ => []
  | (i, mask) :: rest, mask_id =>
    if i ∉ bgIdx then buildFilteredAux bgIdx boxes min_area total_area rest mask_id
    else
      let binary_mask := binarize mask
      let mask_pixel_count := pixelCount binary_mask
      let mask_area_ratio : ℚ := (mask_pixel_count : ℚ) / (total_area : ℚ)
      if mask_area_ratio < min_area then
        buildFilteredAux bgIdx boxes min_area total_area rest mask_id
      else
        ⟨i, mask_id, binary_mask, (boxes.bind (fun bs => bs[i]?))⟩ ::
          buildFilteredAux bgIdx boxes min_area total_area rest (mask_id + 1)

/-- The full filter pipeline producing the `filtered_masks` list. -/
def filteredMasksOf (req : SegmentRequest) (masks : List (Grid ℚ))
    (boxes : Option (List (ℚ × ℚ × ℚ × ℚ))) (bg : Grid Bool) :
    List FilteredMask :=
  let d := maskDims masks
  buildFilteredAux (backgroundExcludedIndices req masks bg) boxes req.min_area
    (d.2 * d.1) ((masks.take req.max_masks).enum) 0

/-- Embedding of `max(0.25, min(1.0, request.inpaint_scale))`. -/
def clampedScale (s : ℚ) : ℚ := max (1/4) (min 1 s)

/-- The combined removal mask: pixelwise union of all surviving binary masks
(`np.maximum` fold over a zero grid), dilated when `dilate_pixels > 0`. -/
def combinedMaskOf (Img : Type) (env : SegmentEnv Img) (req : SegmentRequest)
    (mask_height mask_width : ℕ) (filtered : List FilteredMask) : Grid Bool :=
  let combined_mask :=
    filtered.foldl (fun acc fm => orGrid acc fm.binary_mask)
      (zeroGrid mask_height mask_width)
  if 0 < req.dilate_pixels then env.dilateGrid req.dilate_pixels combined_mask
  else combined_mask

/-- The image handed to LaMa in combined mode (downscaled when the clamped
`inpaint_scale` is below 1). -/
def combinedScaledImage (Img : Type) (env : SegmentEnv Img) (req : SegmentRequest)
    (image : Img) : Img :=
  let inpaint_scale := clampedScale req.inpaint_scale
  if inpaint_scale < 1 then
    env.resizeImg image (pyInt ((env.imageW : ℚ) * inpaint_scale))
      (pyInt ((env.imageH : ℚ) * inpaint_scale))
  else image

/-- The mask handed to LaMa in combined mode: the combined mask resized to
image resolution and then downscaled alongside the image when needed. -/
def combinedScaledMask (Img : Type) (env : SegmentEnv Img) (req : SegmentRequest)
    (mask_height mask_width : ℕ) (filtered : List FilteredMask) : Grid Bool :=
  let inpaint_scale := clampedScale req.inpaint_scale
  let combined_mask_resized :=
    resizeNearestPIL (combinedMaskOf Img env req mask_height mask_width filtered)
      env.imageW env.imageH
  if inpaint_scale < 1 then
    resizeNearestPIL combined_mask_resized
      (pyInt ((env.imageW : ℚ) * inpaint_scale)).toNat
      (pyInt ((env.imageH : ℚ) * inpaint_scale)).toNat
  else combined_mask_resized

/-- The combined-inpainting branch: union the surviving binary masks, dilate,
resize to image resolution, optionally downscale, call LaMa once, and upscale
the result; a collaborator failure is caught and yields no artifact.  Returns
the optional artifact and the number of LaMa calls. -/
def combinedInpaint (Img : Type) (env : SegmentEnv Img) (req : SegmentRequest)
    (image : Img) (mask_height mask_width : ℕ) (filtered : List FilteredMask) :
    Option Img × ℕ :=
  if req.combined_inpaint ∧ 0 < filtered.length then
    match env.lama (combinedScaledImage Img env req image)
        (combinedScaledMask Img env req mask_height mask_width filtered) with
    | Except.ok inpainted_scaled =>
      (some (if clampedScale req.inpaint_scale < 1 then
          env.resizeImg inpainted_scaled (env.imageW : ℤ) (env.imageH : ℤ)
        else inpainted_scaled), 1)
    | Except.error _ => (Option.none, 1)
  else (Option.none, 0)

/-- Embedding of `PIL.Image.crop((x1, y1, x2, y2))` on a binary grid (out-of-range pixels
read as 0). -/
def cropGrid (g : Grid Bool) (x1 y1 x2 y2 : ℤ) : Grid Bool :=
  (List.range (y2 - y1).toNat).map fun dy =>
    (List.range (x2 - x1).toNat).map fun dx =>
      if 0 ≤ y1 + dy ∧ 0 ≤ x1 + dx then
        (g.getD (y1 + dy).toNat []).getD (x1 + dx).toNat false
      else false

/-- Build one `masks_data` payload for a surviving mask: resize the binary
mask to image resolution, crop to the clamped bbox, and — in individual mode
with a known bbox — dilate, call LaMa on the whole image, and crop the result
to the bbox expanded by padding ratio 0.15; a LaMa failure is caught and
leaves both inpaint fields absent.  Returns the payload and the number of
LaMa calls. -/
def buildMaskPayload (Img : Type) (env : SegmentEnv Img) (req : SegmentRequest)
    (image : Img) (fm : FilteredMask) : MaskPayload Img × ℕ :=
  let mask_img_resized := resizeNearestPIL fm.binary_mask env.imageW env.imageH
  let cropped :=
    match fm.bbox with
    | some (bx1, by1, bx2, by2) =>
      let x1 := max 0 (pyInt bx1)
      let y1 := max 0 (pyInt by1)
      let x2 := min (env.imageW : ℤ) (pyInt bx2)
      let y2 := min (env.imageH : ℤ) (pyInt by2)
      (cropGrid mask_img_resized x1 y1 x2 y2, x2 - x1, y2 - y1)
    | Option.none => (mask_img_resized, (env.imageW : ℤ), (env.imageH : ℤ))
  let inpaintPart : Option Img × Option (List ℤ) × ℕ :=
    match req.combined_inpaint, fm.bbox with
    | false, some bbox =>
      let dilated_mask :=
        if 0 < req.dilate_pixels then env.dilateGrid req.dilate_pixels fm.binary_mask
        else fm.binary_mask
      let mask_resized := resizeNearestPIL dilated_mask env.imageW env.imageH
      (match env.lama image mask_resized with
       | Except.ok inpainted =>
         let ib := expand_bbox bbox (env.imageW, env.imageH) (15/100)
         (some (env.cropImg inpainted (ib.getD 0 0) (ib.getD 1 0) (ib.getD 2 0)
            (ib.getD 3 0)), some ib, 1)
       | Except.error _ => (Option.none, Option.none, 1))
    | _, _ => (Option.none, Option.none, 0)
  (⟨fm.mask_id, cropped.1, cropped.2.1, cropped.2.2, fm.bbox,
    generate_distinct_color fm.mask_id, inpaintPart.1, inpaintPart.2.1⟩,
   inpaintPart.2.2)

/-- The `/segment` endpoint handler `segment_image`: decode, infer proposals,
optionally classify background, filter, inpaint, and assemble the response.
Any decode failure aborts with the structured error response; inpainting
failures are handled locally inside `combinedInpaint` / `buildMaskPayload`. -/
def segment_image (Img : Type) (env : SegmentEnv Img) (req : SegmentRequest) :
    SegmentResponse Img × Calls :=
  match env.decoded with
  | Except.error e =>
    (⟨false, some e, Option.none, [], Option.none, Option.none⟩, ⟨0, 0, 0⟩)
  | Except.ok image =>
    match env.proposals with
    | Option.none =>
      (⟨true, Option.none, some 0, [], some (env.imageW, env.imageH), Option.none⟩,
       ⟨1, 0, 0⟩)
    | some masks =>
      let d := maskDims masks
      let segCalls : ℕ :=
        match req.exclude_background with
        | ExcludeBackground.segformer => 1
        | _ => 0
      let filtered := filteredMasksOf req masks env.boxes env.segformer_bg
      let ci := combinedInpaint Img env req image d.1 d.2 filtered
      let payloads := filtered.map (buildMaskPayload Img env req image)
      let masks_data := payloads.map Prod.fst
      let indCalls := (payloads.map Prod.snd).sum
      (⟨true, Option.none, some masks_data.length, masks_data,
        some (env.imageW, env.imageH), ci.1⟩,
       ⟨1, segCalls, ci.2 + indCalls⟩)

lemma buildFilteredAux_eq_filter (bgIdx : List ℕ)
    (boxes : Option (List (ℚ × ℚ × ℚ × ℚ))) (min_area : ℚ) (total_area : ℕ) :
    ∀ (l : List (ℕ × Grid ℚ)) (k : ℕ), (∀ p ∈ l, p.1 ∈ bgIdx) →
      (buildFilteredAux bgIdx boxes min_area total_area l k).map
          (fun fm => (fm.original_idx, fm.binary_mask)) =
        (l.filter (fun p =>
          decide (min_area ≤ (pixelCount (binarize p.2) : ℚ) / (total_area : ℚ)))).map
          (fun p => (p.1, binarize p.2))
  | [], _, _ => rfl
  | (i, m) :: rest, k, hall => by
    have hi : i ∈ bgIdx := hall (i, m) (List.mem_cons_self _ _)
    have htail : ∀ p ∈ rest, p.1 ∈ bgIdx := fun p hp => hall p (List.mem_cons_of_mem _ hp)
    by_cases h : (pixelCount (binarize m) : ℚ) / (total_area : ℚ) < min_area
    · have ih := buildFilteredAux_eq_filter bgIdx boxes min_area total_area rest k htail
      have hc : decide (min_area ≤ (pixelCount (binarize m) : ℚ) / (total_area : ℚ))
          = false := by simp [not_le.mpr h]
      simp only [buildFilteredAux, if_neg (not_not_intro hi), if_pos h,
        List.filter_cons, hc, ih]
      rfl
    · have ih := buildFilteredAux_eq_filter bgIdx boxes min_area total_area rest (k + 1) htail
      have hc : decide (min_area ≤ (pixelCount (binarize m) : ℚ) / (total_area : ℚ))
          = true := by simp [not_lt.mp h]
      simp only [buildFilteredAux, if_neg (not_not_intro hi), if_neg h,
        List.filter_cons, hc, List.map_cons, ih]
      rfl

lemma buildFilteredAux_mask_ids (bgIdx : List ℕ)
    (boxes : Option (List (ℚ × ℚ × ℚ × ℚ))) (min_area : ℚ) (total_area : ℕ) :
    ∀ (l : List (ℕ × Grid ℚ)) (k : ℕ),
      (buildFilteredAux bgIdx boxes min_area total_area l k).map FilteredMask.mask_id
        = List.range' k (buildFilteredAux bgIdx boxes min_area total_area l k).length
  | [], _ => rfl
  | (i, m) :: rest, k => by
    by_cases hi : i ∈ bgIdx
    · by_cases h : (pixelCount (binarize m) : ℚ) / (total_area : ℚ) < min_area
      · simp only [buildFilteredAux, if_neg (not_not_intro hi), if_pos h]
        exact buildFilteredAux_mask_ids bgIdx boxes min_area total_area rest k
      · have ih := buildFilteredAux_mask_ids bgIdx boxes min_area total_area rest (k + 1)
        simp only [buildFilteredAux, if_neg (not_not_intro hi), if_neg h,
          List.map_cons, List.length_cons, ih]
        exact (List.range'_succ k _ 1).symm
    · simp only [buildFilteredAux, if_pos hi]
      exact buildFilteredAux_mask_ids bgIdx boxes min_area total_area rest k

lemma buildFilteredAux_origIdx_sublist (bgIdx : List ℕ)
    (boxes : Option (List (ℚ × ℚ × ℚ × ℚ))) (min_area : ℚ) (total_area : ℕ) :
    ∀ (l : List (ℕ × Grid ℚ)) (k : ℕ),
      List.Sublist
        ((buildFilteredAux bgIdx boxes min_area total_area l k).map
          FilteredMask.original_idx)
        (l.map Prod.fst)
  | [], _ => List.Sublist.refl _
  | (i, m) :: rest, k => by
    by_cases hi : i ∈ bgIdx
    · by_cases h : (pixelCount (binarize m) : ℚ) / (total_area : ℚ) < min_area
      · simp only [buildFilteredAux, if_neg (not_not_intro hi), if_pos h, List.map_cons]
        exact (buildFilteredAux_origIdx_sublist bgIdx boxes min_area total_area rest k).cons _
      · simp only [buildFilteredAux, if_neg (not_not_intro hi), if_neg h, List.map_cons]
        exact (buildFilteredAux_origIdx_sublist bgIdx boxes min_area total_area rest
          (k + 1)).cons₂ _
    · simp only [buildFilteredAux, if_pos hi, List.map_cons]
      exact (buildFilteredAux_origIdx_sublist bgIdx boxes min_area total_area rest k).cons _

lemma mem_enum_fst_lt {α : Type} (l : List α) (p : ℕ × α) (hp : p ∈ l.enum) :
    p.1 < l.length := by
  rw [List.mem_enum_iff_getElem?] at hp
  obtain ⟨h, -⟩ := List.getElem?_eq_some.mp hp
  exact h

/-- C1: with background exclusion disabled ('none'), the surviving masks are
exactly those among the first `max_masks` earliest-ranked proposals whose
binarized mask has pixel count / (proposal_width * proposal_height) ≥
`min_area`, in original rank order; no proposal beyond the `max_masks` cap is
ever retained. -/
theorem filter_pipeline_none_cap_and_area (req : SegmentRequest)
    (masks : List (Grid ℚ)) (boxes : Option (List (ℚ × ℚ × ℚ × ℚ)))
    (bg : Grid Bool) (W H : ℕ)
    (hmode : req.exclude_background = ExcludeBackground.none)
    (hne : masks ≠ [])
    (hdims : ∀ m ∈ masks, gridH m = H ∧ gridW m = W) :
    ((filteredMasksOf req masks boxes bg).map
        (fun fm => (fm.original_idx, fm.binary_mask)) =
      ((masks.take req.max_masks).enum.filter (fun p =>
        decide (req.min_area ≤ (pixelCount (binarize p.2) : ℚ) / ((W * H : ℕ) : ℚ)))).map
        (fun p => (p.1, binarize p.2))) ∧
    (∀ fm ∈ filteredMasksOf req masks boxes bg, fm.original_idx < req.max_masks) := by
  have htot : (maskDims masks).2 * (maskDims masks).1 = W * H := by
    obtain ⟨m0, rest, rfl⟩ : ∃ m0 rest, masks = m0 :: rest := by
      cases masks with
      | nil => exact absurd rfl hne
      | cons m0 rest => exact ⟨m0, rest, rfl⟩
    have hdim0 := hdims m0 (List.mem_cons_self _ _)
    simp [maskDims, hdim0.1, hdim0.2]
  have hall : ∀ p ∈ (masks.take req.max_masks).enum,
      p.1 ∈ backgroundExcludedIndices req masks bg := by
    intro p hp
    have hlt := mem_enum_fst_lt _ p hp
    rw [List.length_take] at hlt
    simp only [backgroundExcludedIndices, hmode]
    rw [List.mem_range, Nat.min_comm]
    exact hlt
  constructor
  · simp only [filteredMasksOf]
    rw [htot, buildFilteredAux_eq_filter _ _ _ _ _ _ hall]
  · intro fm hfm
    have hsub := buildFilteredAux_origIdx_sublist (backgroundExcludedIndices req masks bg)
      boxes req.min_area ((maskDims masks).2 * (maskDims masks).1)
      ((masks.take req.max_masks).enum) 0
    have hmem : fm.original_idx ∈ ((masks.take req.max_masks).enum).map Prod.fst :=
      hsub.subset (List.mem_map_of_mem _ hfm)
    rw [List.enum_map_fst, List.mem_range, List.length_take] at hmem
    exact lt_of_lt_of_le hmem (Nat.min_le_left _ _)

/-- Witness for `filter_pipeline_none_cap_and_area`: two 1×1 proposals with
probabilities 1 and 0, `min_area = 1/2` — the first survives, the second is
dropped. -/
theorem filter_pipeline_none_cap_and_area_witness :
    ((filteredMasksOf ⟨20, 1/2, true, 10, 1/4, ExcludeBackground.none, 1/2⟩
        [[[1]], [[0]]] (Option.none : Option (List (ℚ × ℚ × ℚ × ℚ)))
        ([] : Grid Bool)).map
        (fun fm => (fm.original_idx, fm.binary_mask)) =
      ((([[[1]], [[0]]] : List (Grid ℚ)).take 20).enum.filter (fun p =>
        decide ((1:ℚ)/2 ≤ (pixelCount (binarize p.2) : ℚ) / ((1 * 1 : ℕ) : ℚ)))).map
        (fun p => (p.1, binarize p.2))) ∧
    (∀ fm ∈ filteredMasksOf ⟨20, 1/2, true, 10, 1/4, ExcludeBackground.none, 1/2⟩
        [[[1]], [[0]]] (Option.none : Option (List (ℚ × ℚ × ℚ × ℚ)))
        ([] : Grid Bool), fm.original_idx < 20) :=
  filter_pipeline_none_cap_and_area ⟨20, 1/2, true, 10, 1/4, ExcludeBackground.none, 1/2⟩
    [[[1]], [[0]]] Option.none [] 1 1 rfl (by decide)
    (by intro m hm; fin_cases hm <;> exact ⟨rfl, rfl⟩)

/-- C6: surviving proposals receive dense output ids 0..k-1, assigned in
strictly increasing original-rank order, and the response assembler emits the
payloads in exactly that order with each payload's color equal to
`color(output_id)`. -/
theorem output_ids_dense_ordered_colors (Img : Type) (env : SegmentEnv Img)
    (req : SegmentRequest) (image : Img) (masks : List (Grid ℚ))
    (hdec : env.decoded = Except.ok image) (hp : env.proposals = some masks) :
    ((filteredMasksOf req masks env.boxes env.segformer_bg).map FilteredMask.mask_id
      = List.range (filteredMasksOf req masks env.boxes env.segformer_bg).length) ∧
    (List.Pairwise (· < ·)
      ((filteredMasksOf req masks env.boxes env.segformer_bg).map
        FilteredMask.original_idx)) ∧
    ((segment_image Img env req).1.masks
      = (filteredMasksOf req masks env.boxes env.segformer_bg).map
          (fun fm => (buildMaskPayload Img env req image fm).1)) ∧
    ((segment_image Img env req).1.masks.map MaskPayload.id
      = List.range (filteredMasksOf req masks env.boxes env.segformer_bg).length) ∧
    (∀ p ∈ (segment_image Img env req).1.masks,
      p.color = generate_distinct_color p.id) := by
  have hids : (filteredMasksOf req masks env.boxes env.segformer_bg).map
      FilteredMask.mask_id
      = List.range (filteredMasksOf req masks env.boxes env.segformer_bg).length := by
    unfold filteredMasksOf
    rw [buildFilteredAux_mask_ids, ← List.range_eq_range']
  have hpair : List.Pairwise (· < ·)
      ((filteredMasksOf req masks env.boxes env.segformer_bg).map
        FilteredMask.original_idx) := by
    have hsub := buildFilteredAux_origIdx_sublist
      (backgroundExcludedIndices req masks env.segformer_bg) env.boxes req.min_area
      ((maskDims masks).2 * (maskDims masks).1) ((masks.take req.max_masks).enum) 0
    have hr : List.Pairwise (· < ·) (((masks.take req.max_masks).enum).map Prod.fst) := by
      rw [List.enum_map_fst]
      exact List.pairwise_lt_range _
    exact hr.sublist hsub
  have hm : (segment_image Img env req).1.masks
      = (filteredMasksOf req masks env.boxes env.segformer_bg).map
          (fun fm => (buildMaskPayload Img env req image fm).1) := by
    simp only [segment_image, hdec, hp]
    rw [List.map_map]
    rfl
  refine ⟨hids, hpair, hm, ?_, ?_⟩
  · rw [hm, List.map_map]
    have hc : (MaskPayload.id ∘ fun fm => (buildMaskPayload Img env req image fm).1)
        = FilteredMask.mask_id := by
      funext fm
      rfl
    rw [hc, hids]
  · intro p hp'
    rw [hm] at hp'
    obtain ⟨fm, hfm, rfl⟩ := List.mem_map.mp hp'
    rfl

/-- C7: when zero proposals survive filtering (or the proposal collaborator
returns no masks), no inpainting call is made in either mode and the response
is a success with zero masks and no combined-inpaint artifact — not an
error. -/
theorem empty_filter_no_inpaint (Img : Type) (env : SegmentEnv Img)
    (req : SegmentRequest) (image : Img)
    (hdec : env.decoded = Except.ok image)
    (h : env.proposals = Option.none ∨
      ∃ masks, env.proposals = some masks ∧
        filteredMasksOf req masks env.boxes env.segformer_bg = []) :
    ((segment_image Img env req).2.inpaint = 0) ∧
    ((segment_image Img env req).1.success = true) ∧
    ((segment_image Img env req).1.masks = []) ∧
    ((segment_image Img env req).1.combined_inpaint_data = Option.none) ∧
    ((segment_image Img env req).1.count = some 0) ∧
    ((segment_image Img env req).1.error = Option.none) := by
  rcases h with h | ⟨masks, hp, hf⟩
  · refine ⟨?_, ?_, ?_, ?_, ?_, ?_⟩ <;> simp [segment_image, hdec, h]
  · refine ⟨?_, ?_, ?_, ?_, ?_, ?_⟩ <;>
      simp [segment_image, hdec, hp, hf, combinedInpaint]

/-- C8: an inpainting-collaborator failure degrades the response instead of
failing the request.  The request always succeeds and every per-mask payload
is produced; in combined mode the payloads do not depend on the inpainting
collaborator at all and a failing collaborator merely omits
`combined_inpaint_data`; in individual mode a mask whose own inpainting call
fails gets absent `inpaint_data`/`inpaint_bbox`, and each payload depends only
on the collaborator's answer for its own mask. -/
theorem inpaint_failure_degrades (Img : Type) (env : SegmentEnv Img)
    (req : SegmentRequest) (image : Img) (masks : List (Grid ℚ))
    (g : Img → Grid Bool → Except String Img)
    (hdec : env.decoded = Except.ok image) (hp : env.proposals = some masks) :
    ((segment_image Img env req).1.success = true) ∧
    ((segment_image Img env req).1.masks
      = (filteredMasksOf req masks env.boxes env.segformer_bg).map
          (fun fm => (buildMaskPayload Img env req image fm).1)) ∧
    (req.combined_inpaint = true →
      ((segment_image Img env req).1.masks
        = (segment_image Img { env with lama := g } req).1.masks) ∧
      ((∀ a b, ∃ e, env.lama a b = Except.error e) →
        (segment_image Img env req).1.combined_inpaint_data = Option.none)) ∧
    (req.combined_inpaint = false →
      ∀ fm ∈ filteredMasksOf req masks env.boxes env.segformer_bg,
        ((∃ e, env.lama image (resizeNearestPIL
            (if 0 < req.dilate_pixels then
              env.dilateGrid req.dilate_pixels fm.binary_mask
             else fm.binary_mask) env.imageW env.imageH) = Except.error e) →
          ((buildMaskPayload Img env req image fm).1.inpaint_data = Option.none ∧
           (buildMaskPayload Img env req image fm).1.inpaint_bbox = Option.none)) ∧
        ((env.lama image (resizeNearestPIL
            (if 0 < req.dilate_pixels then
              env.dilateGrid req.dilate_pixels fm.binary_mask
             else fm.binary_mask) env.imageW env.imageH)
          = g image (resizeNearestPIL
            (if 0 < req.dilate_pixels then
              env.dilateGrid req.dilate_pixels fm.binary_mask
             else fm.binary_mask) env.imageW env.imageH)) →
          (buildMaskPayload Img env req image fm)
            = (buildMaskPayload Img { env with lama := g } req image fm))) := by
  have hm : (segment_image Img env req).1.masks
      = (filteredMasksOf req masks env.boxes env.segformer_bg).map
          (fun fm => (buildMaskPayload Img env req image fm).1) := by
    simp only [segment_image, hdec, hp]
    rw [List.map_map]
    rfl
  refine ⟨by simp [segment_image, hdec, hp], hm, fun hcomb => ⟨?_, ?_⟩, fun hind => ?_⟩
  · have hm' : (segment_image Img { env with lama := g } req).1.masks
        = (filteredMasksOf req masks env.boxes env.segformer_bg).map
            (fun fm => (buildMaskPayload Img { env with lama := g } req image fm).1) := by
      simp only [segment_image, hdec, hp]
      rw [List.map_map]
      rfl
    rw [hm, hm']
    refine List.map_congr_left (fun fm _ => ?_)
    simp [buildMaskPayload, hcomb]
  · intro hfail
    simp only [segment_image, hdec, hp]
    show (combinedInpaint Img env req image _ _ _).1 = Option.none
    unfold combinedInpaint
    split
    · split
      · rename_i heq
        obtain ⟨e, he⟩ := hfail _ _
        rw [he] at heq
        exact absurd heq (by simp)
      · rfl
    · rfl
  · intro fm hfm
    constructor
    · intro ⟨e, he⟩
      cases hbb : fm.bbox with
      | none => simp [buildMaskPayload, hind, hbb]
      | some bbox =>
        constructor <;> simp [buildMaskPayload, hind, hbb, he]
    · intro hagree
      cases hbb : fm.bbox with
      | none => simp [buildMaskPayload, hind, hbb]
      | some bbox => simp [buildMaskPayload, hind, hbb, ← hagree]

/-- C9: when the image payload cannot be decoded, the response is exactly
`{success: false, error: <the exception message>, masks: []}` with no other
fields set, and no collaborator (proposal, segmentation or inpainting) is
invoked. -/
theorem malformed_image_error_response (Img : Type) (env : SegmentEnv Img)
    (req : SegmentRequest) (e : String)
    (hdec : env.decoded = Except.error e) (hne : e ≠ "") :
    (segment_image Img env req
      = (⟨false, some e, Option.none, [], Option.none, Option.none⟩,
         ⟨0, 0, 0⟩)) ∧
    e ≠ "" := by
  refine ⟨?_, hne⟩
  simp [segment_image, hdec]

/-! The WebSocket streaming variant (`websocket_server.py`). -/

/-- One mask payload of the WebSocket response (mask content, dimensions of
the original model-resolution mask). -/
structure WsMaskPayload where
  id : ℕ
  data : Grid Bool
  width : ℕ
  height : ℕ
deriving Repr

/-- The WebSocket per-message response. -/
structure WsResponse where
  success : Bool
  count : ℕ
  masks : List WsMaskPayload
  message : Option String
deriving Repr

/-- Per-message processing of `websocket_endpoint`: `count` is taken from the
full proposal list before the cap, the payload list from `masks[:max_masks]`. -/
def ws_process (proposals : Option (List (Grid ℚ))) (max_masks : ℕ) : WsResponse :=
  match proposals with
  | Option.none => ⟨true, 0, [], some "No segments detected"⟩
  | some masks =>
    let mask_count := masks.length
    let capped := masks.take max_masks
    let masks_data := capped.enum.map (fun p =>
      (⟨p.1, binarize p.2, gridW p.2, gridH p.2⟩ : WsMaskPayload))
    ⟨true, mask_count, masks_data, Option.none⟩

/-- C10: when the proposal model returns masks, the WebSocket response's
`count` equals the number of raw proposals before the `max_masks` cap, while
the `masks` array holds at most `max_masks` entries; with more proposals than
`max_masks`, `count` strictly exceeds the payload count. -/
theorem ws_count_before_cap (proposals : Option (List (Grid ℚ))) (max_masks : ℕ)
    (masks : List (Grid ℚ)) (hp : proposals = some masks) :
    ((ws_process proposals max_masks).count = masks.length) ∧
    ((ws_process proposals max_masks).masks.length = min max_masks masks.length) ∧
    ((ws_process proposals max_masks).masks.length ≤ max_masks) ∧
    (max_masks < masks.length →
      (ws_process proposals max_masks).masks.length
        < (ws_process proposals max_masks).count) := by
  subst hp
  refine ⟨rfl, ?_, ?_, fun h => ?_⟩ <;>
    simp only [ws_process, List.length_map, List.enumFrom_length, List.length_take,
      List.enum] <;> omega

/-- Witness for `ws_count_before_cap`: three 1×1 proposals, cap 2 — the
response reports count 3 with 2 payloads. -/
theorem ws_count_before_cap_witness :
    ((ws_process (some [[[1]], [[1]], [[0]]]) 2).count = 3) ∧
    ((ws_process (some [[[1]], [[1]], [[0]]]) 2).masks.length = min 2 3) ∧
    ((ws_process (some [[[1]], [[1]], [[0]]]) 2).masks.length ≤ 2) ∧
    (2 < 3 →
      (ws_process (some [[[1]], [[1]], [[0]]]) 2).masks.length
        < (ws_process (some [[[1]], [[1]], [[0]]]) 2).count) := by
  have h := ws_count_before_cap (some [[[1]], [[1]], [[0]]]) 2 [[[1]], [[1]], [[0]]] rfl
  exact ⟨h.1, h.2.1, h.2.2.1, h.2.2.2⟩

/-! Concrete environments for witnessing the pipeline theorems. -/

/-- A concrete environment over `Img := ℕ` with a working inpainting
collaborator. -/
def natEnv (dec : Except String ℕ) (props : Option (List (Grid ℚ))) :
    SegmentEnv ℕ :=
  ⟨dec, 2, 2, props, Option.none, [[true]],
   fun _ _ => Except.ok 7, fun i _ _ => i, fun i _ _ _ _ => i, fun _ grid => grid⟩

/-- A concrete environment over `Img := ℕ` whose inpainting collaborator
always fails. -/
def natEnvFail : SegmentEnv ℕ :=
  ⟨Except.ok 0, 2, 2, some [[[1]]], Option.none, [[true]],
   fun _ _ => Except.error "inpaint failed", fun i _ _ => i, fun i _ _ _ _ => i,
   fun _ grid => grid⟩

/-- Default-like request with combined inpainting and no background
exclusion. -/
def reqCombined : SegmentRequest :=
  ⟨20, 1/200, true, 10, 1/4, ExcludeBackground.none, 1/2⟩

/-- Witness for `output_ids_dense_ordered_colors` at a one-proposal request. -/
theorem output_ids_dense_ordered_colors_witness :
    (segment_image ℕ (natEnv (Except.ok 0) (some [[[1]]])) reqCombined).1.masks.map
        MaskPayload.id
      = List.range (filteredMasksOf reqCombined [[[1]]]
          (natEnv (Except.ok 0) (some [[[1]]])).boxes
          (natEnv (Except.ok 0) (some [[[1]]])).segformer_bg).length :=
  (output_ids_dense_ordered_colors ℕ (natEnv (Except.ok 0) (some [[[1]]]))
    reqCombined 0 [[[1]]] rfl rfl).2.2.2.1

/-- Witness for `empty_filter_no_inpaint` when the proposal collaborator
returns no masks. -/
theorem empty_filter_no_inpaint_witness :
    ((segment_image ℕ (natEnv (Except.ok 0) Option.none) reqCombined).2.inpaint = 0) ∧
    ((segment_image ℕ (natEnv (Except.ok 0) Option.none) reqCombined).1.success
      = true) ∧
    ((segment_image ℕ (natEnv (Except.ok 0) Option.none) reqCombined).1.masks = []) ∧
    ((segment_image ℕ (natEnv (Except.ok 0) Option.none)
        reqCombined).1.combined_inpaint_data = Option.none) ∧
    ((segment_image ℕ (natEnv (Except.ok 0) Option.none) reqCombined).1.count
      = some 0) ∧
    ((segment_image ℕ (natEnv (Except.ok 0) Option.none) reqCombined).1.error
      = Option.none) :=
  empty_filter_no_inpaint ℕ (natEnv (Except.ok 0) Option.none) reqCombined 0 rfl
    (Or.inl rfl)

/-- Witness for `inpaint_failure_degrades` with an always-failing inpainting
collaborator in combined mode. -/
theorem inpaint_failure_degrades_witness :
    ((segment_image ℕ natEnvFail reqCombined).1.success = true) ∧
    ((segment_image ℕ natEnvFail reqCombined).1.combined_inpaint_data
      = Option.none) :=
  ⟨(inpaint_failure_degrades ℕ natEnvFail reqCombined 0 [[[1]]]
      (fun _ _ => Except.ok 9) rfl rfl).1,
   ((inpaint_failure_degrades ℕ natEnvFail reqCombined 0 [[[1]]]
      (fun _ _ => Except.ok 9) rfl rfl).2.2.1 rfl).2
     (fun _ _ => ⟨"inpaint failed", rfl⟩)⟩

/-- Witness for `malformed_image_error_response` at a decode failure with the
base64 library's message. -/
theorem malformed_image_error_response_witness :
    (segment_image ℕ (natEnv (Except.error "Invalid base64-encoded string")
        Option.none) reqCombined
      = (⟨false, some "Invalid base64-encoded string", Option.none, [],
          Option.none, Option.none⟩, ⟨0, 0, 0⟩)) ∧
    "Invalid base64-encoded string" ≠ "" :=
  malformed_image_error_response ℕ
    (natEnv (Except.error "Invalid base64-encoded string") Option.none) reqCombined
    "Invalid base64-encoded string" rfl (by decide)

end DrShooting
